import Mathlib

/-!
Shallow embedding of the core of `kilo-rs` (`src/main.rs`): the row store,
render mapper, syntax engine and search engine, together with theorems
checking the natural-language specification against this code.

Conventions of the embedding:
* Rust `String` row content is modelled as `List Char` (the repository's
  content is byte/ASCII oriented, so byte indices and char indices agree).
* `usize` arithmetic is `Nat`; a subtraction that would underflow in Rust
  (a panic in debug builds) is modelled by returning `none`.
* Any slice/vector indexing that would panic in Rust is modelled by a
  checked access returning `none`; thus `none` everywhere means
  "the Rust code panics on this input".
-/

def KILO_TAB_STOP : Nat := 8

inductive Highlight where
  | Normal
  | Comment
  | MLComment
  | Keyword1
  | Keyword2
  | String
  | Number
  | Match
  deriving DecidableEq, Repr

inductive Direction where
  | Forward
  | Backward
  deriving DecidableEq, Repr

inductive EditorKey where
  | Char (c : Char)
  | Ctrl (c : Char)
  | ArrowLeft
  | ArrowRight
  | ArrowUp
  | ArrowDown
  | DeleteKey
  | PageUp
  | PageDown
  | HomeKey
  | EndKey
  | EscapeSeq
  | CarriageReturn
  | Backspace
  deriving DecidableEq, Repr

/-- `EditorSyntax` from `main.rs` (filetype/filematch omitted: they only
select the language and play no part in classification). `flags` is the
`u8` bit set with `Number = 1`, `String = 2`. -/
structure EditorSyntax where
  keywords : List (List Char)
  singleline_comment_start : List Char
  multiline_comment_start : List Char
  multiline_comment_end : List Char
  flags : Nat
  deriving DecidableEq, Repr

/-- `Row` from `main.rs`. -/
structure Row where
  idx : Nat
  chars : List Char
  render : List Char
  hl : List Highlight
  hl_open_comment : Bool
  deriving DecidableEq, Repr

/-- The fields of `EditorConfig` that the core (row store, syntax engine,
search engine) reads or writes; terminal fields are omitted. -/
structure EditorConfig where
  cx : Nat
  cy : Nat
  rowoff : Nat
  numrows : Nat
  rows : List Row
  dirty : Bool
  last_match : Int
  direction : Direction
  saved_hl_line : Int
  saved_hl : Option (List Highlight)
  editor_syntax : Option EditorSyntax
  deriving DecidableEq, Repr

/-- The one built-in language definition (C family), from `EditorConfig::new`. -/
def c_keywords : List (List Char) :=
  [("switch").toList, ("if").toList, ("while").toList, ("for").toList,
   ("break").toList, ("continue").toList, ("return").toList, ("else").toList,
   ("struct").toList, ("union").toList, ("typedef").toList, ("static").toList,
   ("enum").toList, ("class").toList, ("case").toList,
   ("int|").toList, ("long|").toList, ("double|").toList, ("float|").toList,
   ("char|").toList, ("unsigned|").toList, ("signed|").toList, ("void|").toList]

def c_syntax : EditorSyntax :=
  { keywords := c_keywords
    singleline_comment_start := ("//").toList
    multiline_comment_start := ("/*").toList
    multiline_comment_end := ("*/").toList
    flags := 3 }

/-- Rust `char::is_ascii_whitespace`. -/
def is_ascii_whitespace (c : Char) : Bool :=
  c = ' ' || c = '\t' || c = '\n' || c = '\x0c' || c = '\r'

/-- `is_seperator` from `main.rs` (source spelling kept). -/
def is_seperator (c : Char) : Bool :=
  is_ascii_whitespace c || (",.()+-/*=~%<>[];").toList.contains c

/-- Checked single-element store, modelling `v[i] = a` (panics when `i` is
out of bounds). -/
def listSet? {α : Type} (l : List α) (i : Nat) (a : α) : Option (List α) :=
  if i < l.length then some (l.set i a) else none

/-- Checked range store, modelling `for el in &mut v[i..j] { *el = a }`
(slicing panics unless `i ≤ j ≤ v.len()`). -/
def listSetRange? {α : Type} (l : List α) (i j : Nat) (a : α) : Option (List α) :=
  if i ≤ j ∧ j ≤ l.length then
    some (l.take i ++ List.replicate (j - i) a ++ l.drop j)
  else none

/-- The render-building loop of `editor_update_row`: each tab becomes
spaces up to the next multiple of `KILO_TAB_STOP`; `idx` is the number of
render characters emitted so far. -/
def renderChars : List Char → Nat → List Char
  | [], _ => []
  | c :: rest, idx =>
    if c = '\t' then
      List.replicate (KILO_TAB_STOP - idx % KILO_TAB_STOP) ' ' ++
        renderChars rest (idx + (KILO_TAB_STOP - idx % KILO_TAB_STOP))
    else c :: renderChars rest (idx + 1)

/-- One character's advance of the rendered column, shared verbatim by
`editor_row_cx_to_rx` and `editor_row_rx_to_cx` in the source:
`rx += (KILO_TAB_STOP - 1) - (rx % KILO_TAB_STOP); rx += 1;` for a tab,
`rx += 1` otherwise. -/
def rxStep (rx : Nat) (c : Char) : Nat :=
  if c = '\t' then rx + (KILO_TAB_STOP - 1 - rx % KILO_TAB_STOP) + 1 else rx + 1

def cxToRxAux : List Char → Nat → Nat
  | [], rx => rx
  | c :: rest, rx => cxToRxAux rest (rxStep rx c)

/-- `editor_row_cx_to_rx`: walk `chars[..cx]` accumulating rendered width. -/
def editor_row_cx_to_rx (row : Row) (cx : Nat) : Nat :=
  cxToRxAux (row.chars.take cx) 0

def rxToCxAux (rx : Nat) : List Char → Nat → Nat → Nat
  | [], _, cx => cx
  | c :: rest, cur_rx, cx =>
    if rxStep cur_rx c > rx then cx else rxToCxAux rx rest (rxStep cur_rx c) (cx + 1)

/-- `editor_row_rx_to_cx`: inverse walk, returning the raw index whose
cumulative rendered width first exceeds `rx`, or the row length. -/
def editor_row_rx_to_cx (row : Row) (rx : Nat) : Nat :=
  rxToCxAux rx row.chars 0 0

/-- The keyword-matching `for` loop of `apply_syntax`. For a keyword ending
in the `|` marker the source sets `klen -= 1` and then compares against
`keyword[..klen - 1]`, i.e. the keyword with its marker AND its final
character removed. Returns `none` for a panic (`bytes[klen]` read past the
end of the row slice, or `klen - 1` underflow on an empty keyword),
`some none` when no keyword matches, and `some (some (klen, is_kw2))` on a
match. -/
def findKeyword (slice : List Char) : List (List Char) → Option (Option (Nat × Bool))
  | [] => some none
  | keyword :: rest =>
    if keyword.length = 0 then none
    else
      let is_kw2 := keyword.drop (keyword.length - 1) = ['|']
      let klen := if is_kw2 then keyword.length - 1 else keyword.length
      let kw := if is_kw2 then keyword.take (klen - 1) else keyword
      if kw.isPrefixOf slice then
        match slice.get? klen with
        | none => none
        | some b =>
          if is_seperator b then some (some (klen, is_kw2))
          else findKeyword slice rest
      else findKeyword slice rest

/-- The `while i < n` scan of `apply_syntax`, one constructor argument per
loop variable (`i`, `hl`, `in_comment`, `in_string`, `prev_sep`). `fuel`
bounds the number of iterations; every iteration advances `i` by at least
one, so `fuel = render.length` never runs out. Returns the final `hl` and
the final local `in_comment` (which the Rust caller discards, since
`apply_syntax` takes `in_comment` by value). -/
def applySyntaxLoop (syn : EditorSyntax) (render : List Char) :
    Nat → Nat → List Highlight → Bool → Bool → Bool → Option (List Highlight × Bool)
  | fuel, i, hl, in_comment, in_string, prev_sep =>
    if hn : i < render.length then
      match fuel with
      | 0 => none
      | fuel + 1 =>
        let c := render.get ⟨i, hn⟩
        let scs := syn.singleline_comment_start
        let mcs := syn.multiline_comment_start
        let mce := syn.multiline_comment_end
        match (if i = 0 then some Highlight.Normal else hl.get? (i - 1)) with
        | none => none
        | some prev_hl =>
          if scs.length > 0 && !in_string && !in_comment
              && scs.isPrefixOf (render.drop i) then
            if i ≤ hl.length then
              some (hl.take i ++ List.replicate (hl.length - i) Highlight.Comment,
                    in_comment)
            else none
          else if mcs.length > 0 && mce.length > 0 && !in_string && in_comment then
            match listSet? hl i Highlight.MLComment with
            | none => none
            | some hl1 =>
              if mce.isPrefixOf render then
                match listSetRange? hl1 i (i + mce.length) Highlight.MLComment with
                | none => none
                | some hl2 =>
                  applySyntaxLoop syn render fuel (i + mce.length) hl2 false in_string true
              else
                applySyntaxLoop syn render fuel (i + 1) hl1 in_comment in_string prev_sep
          else if mcs.length > 0 && mce.length > 0 && !in_string
              && mcs.isPrefixOf (render.drop i) then
            match listSetRange? hl i (i + mcs.length) Highlight.MLComment with
            | none => none
            | some hl1 =>
              applySyntaxLoop syn render fuel (i + mcs.length) hl1 true in_string prev_sep
          else if Nat.land syn.flags 2 = 2 && in_string then
            match listSet? hl i Highlight.String with
            | none => none
            | some hl1 =>
              if c = '\\' && i + 1 < render.length then
                match listSet? hl1 (i + 1) Highlight.String with
                | none => none
                | some hl2 =>
                  applySyntaxLoop syn render fuel (i + 2) hl2 in_comment in_string prev_sep
              else
                applySyntaxLoop syn render fuel (i + 1) hl1 in_comment
                  (if c = '"' || c = '\'' then false else in_string) true
          else if Nat.land syn.flags 2 = 2 && !in_string && (c = '"' || c = '\'') then
            match listSet? hl i Highlight.String with
            | none => none
            | some hl1 =>
              applySyntaxLoop syn render fuel (i + 1) hl1 in_comment true prev_sep
          else if Nat.land syn.flags 1 = 1 &&
              ((c.isDigit && (prev_sep || prev_hl = Highlight.Number))
                || (c = '.' && prev_hl = Highlight.Number)) then
            match listSet? hl i Highlight.Number with
            | none => none
            | some hl1 =>
              applySyntaxLoop syn render fuel (i + 1) hl1 in_comment in_string false
          else if prev_sep then
            match findKeyword (render.drop i) syn.keywords with
            | none => none
            | some none =>
              applySyntaxLoop syn render fuel (i + 1) hl in_comment in_string (is_seperator c)
            | some (some (klen, is_kw2)) =>
              match listSetRange? hl i (i + klen)
                  (if is_kw2 then Highlight.Keyword2 else Highlight.Keyword1) with
              | none => none
              | some hl1 =>
                applySyntaxLoop syn render fuel (i + klen + 1) hl1 in_comment in_string
                  (is_seperator c)
          else
            applySyntaxLoop syn render fuel (i + 1) hl in_comment in_string (is_seperator c)
    else some (hl, in_comment)

/-- `apply_syntax` from `main.rs`: scans `row.render`, mutating `row.hl` in
place; starts with `prev_sep = true`, `in_string = false`. The second
component is the final `in_comment`, which the Rust function loses because
the parameter is passed by value. -/
def apply_syntax (syn : EditorSyntax) (in_comment : Bool) (row : Row) :
    Option (List Highlight × Bool) :=
  applySyntaxLoop syn row.render row.render.length 0 row.hl in_comment false true

/-- `editor_update_syntax` from `main.rs`. The row's `hl` is first reset to
`Normal` repeated `row.chars.len()` times (the source sizes it to the RAW
length, not the render length). When the `changed` flag is set and a next
row exists, the source enters a `while` loop whose body calls
`rows.borrow_mut()` while the `RefMut` taken at the top of the function is
still alive: a guaranteed `BorrowMutError` panic, modelled as `none`. -/
def editor_update_syntax (syn : Option EditorSyntax) (rows : List Row) (cy : Nat) :
    Option (List Row) :=
  match rows.get? cy with
  | none => none
  | some row =>
    let prev_row := if cy = 0 then none else rows.get? (cy - 1)
    let row0 : Row := { row with hl := List.replicate row.chars.length Highlight.Normal }
    match syn with
    | none => some (rows.set cy row0)
    | some synt =>
      let in_comment := decide (row0.idx > 0) &&
        (match prev_row with
         | some r => r.hl_open_comment
         | none => false)
      match apply_syntax synt in_comment row0 with
      | none => none
      | some (hl1, _) =>
        let changed := row0.hl_open_comment != in_comment
        let row1 : Row := { row0 with hl := hl1, hl_open_comment := in_comment }
        if changed && row1.idx + 1 < rows.length then none
        else some (rows.set cy row1)

/-- `editor_update_row` from `main.rs`: rebuild `render` from `chars`
(tab expansion), then re-run the syntax pass. -/
def editor_update_row (syn : Option EditorSyntax) (rows : List Row) (cy : Nat) :
    Option (List Row) :=
  match rows.get? cy with
  | none => none
  | some row =>
    editor_update_syntax syn (rows.set cy { row with render := renderChars row.chars 0 }) cy

/-- The re-number loop of `editor_insert_row`:
`for j in at + 1..numrows { rows[j].idx += 1 }`, with `k` the number of
remaining iterations and `j` the current index (checked indexing). -/
def bumpIdxAux : List Row → Nat → Nat → Option (List Row)
  | rows, _, 0 => some rows
  | rows, j, k + 1 =>
    match rows.get? j with
    | none => none
    | some r => bumpIdxAux (rows.set j { r with idx := r.idx + 1 }) (j + 1) k

/-- The re-number loop of `editor_del_row`:
`for j in at..numrows - 1 { rows[j].idx -= 1 }`; a `usize` decrement of an
`idx` that is already `0` underflows (panic, modelled `none`). -/
def decIdxAux : List Row → Nat → Nat → Option (List Row)
  | rows, _, 0 => some rows
  | rows, j, k + 1 =>
    match rows.get? j with
    | none => none
    | some r =>
      if r.idx = 0 then none
      else decIdxAux (rows.set j { r with idx := r.idx - 1 }) (j + 1) k

/-- `editor_insert_row` from `main.rs`. Note the guard: an out-of-range
`at` returns WITHOUT inserting (silent no-op, not a clamp), and the
re-number loop starts at `at + 1`, skipping the row that insertion shifts
from position `at` to position `at + 1`. -/
def editor_insert_row (cfg : EditorConfig) (chars : List Char) (a : Nat) :
    Option EditorConfig :=
  if a > cfg.numrows then some cfg
  else
    match bumpIdxAux cfg.rows (a + 1) (cfg.numrows - (a + 1)) with
    | none => none
    | some rows1 =>
      if a ≤ rows1.length then
        let rows2 := List.insertIdx a
          { idx := a, chars := chars, render := [], hl := [],
            hl_open_comment := false : Row } rows1
        match editor_update_row cfg.editor_syntax rows2 a with
        | none => none
        | some rows3 =>
          some { cfg with rows := rows3, numrows := rows2.length, dirty := true }
      else none

/-- `editor_free_row` from `main.rs`. -/
def editor_free_row (row : Row) : Row :=
  { row with chars := [], render := [], hl := [] }

/-- `editor_del_row` from `main.rs`. The source frees `rows[cfg.cy]` (the
cursor row, not necessarily `rows[at]`), removes `rows[at]`, decrements
`numrows`, then runs `for j in at..numrows - 1`; with `numrows = 0` the
bound `numrows - 1` underflows (panic, modelled `none`). -/
def editor_del_row (cfg : EditorConfig) (a : Nat) : Option EditorConfig :=
  if a ≥ cfg.numrows then some cfg
  else
    match cfg.rows.get? cfg.cy with
    | none => none
    | some rcy =>
      let rows1 := cfg.rows.set cfg.cy (editor_free_row rcy)
      if a < rows1.length then
        let rows2 := rows1.eraseIdx a
        let numrows1 := cfg.numrows - 1
        if numrows1 = 0 then none
        else
          match decIdxAux rows2 a (numrows1 - 1 - a) with
          | none => none
          | some rows3 =>
            some { cfg with rows := rows3, numrows := numrows1, dirty := true }
      else none

/-- `editor_insert_new_line` from `main.rs` (the spec's `split_row`). With
`cx = 0` it inserts an empty row at position 0; otherwise it inserts
`chars[cx - 1..]` after the cursor row and truncates the cursor row to
`chars[..cx - 1]` — note `cx - 1`, not `cx`. -/
def editor_insert_new_line (cfg : EditorConfig) : Option EditorConfig :=
  if cfg.cx = 0 then
    match editor_insert_row cfg [] 0 with
    | none => none
    | some cfg1 => some { cfg1 with cy := cfg1.cy + 1, cx := 0 }
  else
    match cfg.rows.get? cfg.cy with
    | none => none
    | some row =>
      if cfg.cx - 1 ≤ row.chars.length then
        match editor_insert_row cfg (row.chars.drop (cfg.cx - 1)) (cfg.cy + 1) with
        | none => none
        | some cfg1 =>
          match cfg1.rows.get? cfg.cy with
          | none => none
          | some row1 =>
            match editor_update_row cfg1.editor_syntax
                (cfg1.rows.set cfg.cy { row1 with chars := row.chars.take (cfg.cx - 1) })
                cfg.cy with
            | none => none
            | some rows2 => some { cfg1 with rows := rows2, cy := cfg1.cy + 1, cx := 0 }
      else none

/-- `editor_rows_to_string` from `main.rs`: every row's raw content
followed by a newline. -/
def editor_rows_to_string (cfg : EditorConfig) : List Char :=
  cfg.rows.foldl (fun buf row => buf ++ row.chars ++ ['\n']) []

/-- `str::find` on ASCII content: first index at which `needle` occurs. -/
def strFindAux (needle : List Char) : List Char → Nat → Option Nat
  | [], i => if needle.isPrefixOf [] then some i else none
  | c :: rest, i =>
    if needle.isPrefixOf (c :: rest) then some i else strFindAux needle rest (i + 1)

def strFind (hay needle : List Char) : Option Nat :=
  strFindAux needle hay 0

/-- The highlight-restore prologue of `editor_find_callback`: when a saved
snapshot exists, write it back element-by-element over
`rows[saved_hl_line as usize].hl` (a negative line wraps to a huge `usize`
and panics; a snapshot shorter than the row's `hl` indexes past its end
and panics). The snapshot itself is NOT cleared. -/
def restoreSavedHl (cfg : EditorConfig) : Option EditorConfig :=
  match cfg.saved_hl with
  | none => some cfg
  | some saved =>
    if cfg.saved_hl_line < 0 then none
    else
      match cfg.rows.get? cfg.saved_hl_line.toNat with
      | none => none
      | some row =>
        if row.hl.length ≤ saved.length then
          let row1 : Row := { row with hl := saved.take row.hl.length }
          some { cfg with rows := cfg.rows.set cfg.saved_hl_line.toNat row1 }
        else none

/-- The scan loop of `editor_find_callback`: at most `numrows` steps,
advancing `current` in `dir` with wrap-around, stopping at the first row
whose render contains the query. Returns `some (some (row, byteIdx))` on a
hit, `some none` when the scan exhausts, `none` on a panic. -/
def findLoop (query : List Char) (rows : List Row) (numrows : Nat) (dir : Direction) :
    Nat → Int → Option (Option (Int × Nat))
  | 0, _ => some none
  | k + 1, current0 =>
    let current1 : Int :=
      match dir with
      | Direction.Forward => current0 + 1
      | Direction.Backward => current0 - 1
    if current1 = -1 && numrows = 0 then none
    else
      let current2 : Int :=
        if current1 = -1 then ((numrows : Int) - 1)
        else if current1 = (numrows : Int) then 0 else current1
      if current2 < 0 then none
      else
        match rows.get? current2.toNat with
        | none => none
        | some row =>
          match strFind row.render query with
          | some index => some (some (current2, index))
          | none => findLoop query rows numrows dir k current2

/-- `editor_find_callback` from `main.rs`: restore any overlaid highlight,
interpret the navigation key, scan for the next match and, on a hit, move
the cursor, save the row's highlight and overlay the matched span with
`Highlight.Match`. -/
def editor_find_callback (cfg0 : EditorConfig) (query : List Char) (key : EditorKey) :
    Option EditorConfig :=
  match restoreSavedHl cfg0 with
  | none => none
  | some cfg =>
    match key with
    | EditorKey.CarriageReturn | EditorKey.EscapeSeq =>
      some { cfg with last_match := -1, direction := Direction.Forward }
    | _ =>
      let cfg1 :=
        match key with
        | EditorKey.ArrowRight | EditorKey.ArrowDown =>
          { cfg with direction := Direction.Forward }
        | EditorKey.ArrowLeft | EditorKey.ArrowUp =>
          { cfg with direction := Direction.Backward }
        | _ => { cfg with last_match := -1, direction := Direction.Forward }
      let cfg2 :=
        if cfg1.last_match = -1 then { cfg1 with direction := Direction.Forward } else cfg1
      match findLoop query cfg2.rows cfg2.numrows cfg2.direction cfg2.numrows
          cfg2.last_match with
      | none => none
      | some none => some cfg2
      | some (some (current, index)) =>
        match cfg2.rows.get? current.toNat with
        | none => none
        | some row =>
          match listSetRange? row.hl index (index + query.length) Highlight.Match with
          | none => none
          | some hl1 =>
            some { cfg2 with
                   last_match := current
                   cy := current.toNat
                   cx := editor_row_rx_to_cx row index
                   rowoff := cfg2.numrows
                   saved_hl_line := current
                   saved_hl := some row.hl
                   rows := cfg2.rows.set current.toNat { row with hl := hl1 } }

/-- A row as the editor itself derives it with no active language: raw
content, tab-expanded render, and one `Normal` tag per RAW character
(which is what `editor_update_syntax` allocates). -/
def mkRow (i : Nat) (cs : List Char) : Row :=
  { idx := i, chars := cs, render := renderChars cs 0,
    hl := List.replicate cs.length Highlight.Normal, hl_open_comment := false }

/-- An editor state over the given rows, cursor at `(cx, cy)`, no active
language, no search in progress. -/
def mkCfg (rows : List Row) (cx cy : Nat) : EditorConfig :=
  { cx := cx, cy := cy, rowoff := 0, numrows := rows.length, rows := rows,
    dirty := false, last_match := -1, direction := Direction.Forward,
    saved_hl_line := -1, saved_hl := none, editor_syntax := none }

/-- Document `["a", "b", "c"]` with indices `[0, 1, 2]`, cursor on row 1. -/
def abcCfg : EditorConfig :=
  mkCfg [mkRow 0 (("a").toList), mkRow 1 (("b").toList), mkRow 2 (("c").toList)] 0 1

/-- Single-row document `["a"]`, cursor at the origin. -/
def oneRowCfg : EditorConfig := mkCfg [mkRow 0 (("a").toList)] 0 0

/-- Empty document. -/
def emptyCfg : EditorConfig := mkCfg [] 0 0

/-- A freshly loaded row containing one tab character (render and
highlight not yet derived). -/
def tabRawRow : Row :=
  { idx := 0, chars := ['\t'], render := [], hl := [], hl_open_comment := false }

/-- The row "a<tab>b", as derived by the editor. -/
def tabDemoRow : Row := mkRow 0 (("a\tb").toList)

/-- Document `["foo", "bar", "foobar"]` ready for the search scenario. -/
def searchCfg0 : EditorConfig :=
  mkCfg [mkRow 0 (("foo").toList), mkRow 1 (("bar").toList),
         mkRow 2 (("foobar").toList)] 0 0

/-- First search step: no prior match, the user has just typed the query
(the `Char` key takes the reset arm of the callback's `match`). -/
def findDemo1 : Option EditorConfig :=
  editor_find_callback searchCfg0 (("foo").toList) (EditorKey.Char 'o')

/-- Second step: "next" (ArrowRight) continues forward. -/
def findDemo2 : Option EditorConfig :=
  findDemo1.bind (fun c => editor_find_callback c (("foo").toList) EditorKey.ArrowRight)

/-- Third step: "next" again, wrapping past the end of the document. -/
def findDemo3 : Option EditorConfig :=
  findDemo2.bind (fun c => editor_find_callback c (("foo").toList) EditorKey.ArrowRight)

/-- The observable outcome of a search step: matched row (`last_match`),
cursor row `cy`, cursor raw column `cx`. -/
def searchStats (c : EditorConfig) : Int × Nat × Nat := (c.last_match, c.cy, c.cx)

-- Helper lemmas -----------------------------------------------------------

theorem rxStep_gt (rx : Nat) (c : Char) : rx < rxStep rx c := by
  unfold rxStep
  split <;> omega

theorem cxToRxAux_le (l : List Char) : ∀ r : Nat, r ≤ cxToRxAux l r := by
  induction l with
  | nil => intro r; simp [cxToRxAux]
  | cons c rest ih =>
    intro r
    exact le_trans (le_of_lt (rxStep_gt r c)) (ih (rxStep r c))

theorem rxToCx_take (l : List Char) : ∀ k r0 c0 : Nat, k ≤ l.length →
    rxToCxAux (cxToRxAux (l.take k) r0) l r0 c0 = c0 + k := by
  induction l with
  | nil =>
    intro k r0 c0 hk
    have : k = 0 := Nat.le_zero.mp hk
    subst this
    simp [cxToRxAux, rxToCxAux]
  | cons c rest ih =>
    intro k r0 c0 hk
    cases k with
    | zero =>
      have hgt : rxStep r0 c > cxToRxAux ([] : List Char) r0 := rxStep_gt r0 c
      simp only [List.take_zero]
      simp [rxToCxAux, cxToRxAux, rxStep_gt r0 c]
    | succ j =>
      have hj : j ≤ rest.length := Nat.le_of_succ_le_succ (by simpa using hk)
      have h1 : cxToRxAux ((c :: rest).take (j + 1)) r0
          = cxToRxAux (rest.take j) (rxStep r0 c) := rfl
      rw [h1]
      have hnot : ¬ (rxStep r0 c > cxToRxAux (rest.take j) (rxStep r0 c)) :=
        not_lt.mpr (cxToRxAux_le _ _)
      calc rxToCxAux (cxToRxAux (rest.take j) (rxStep r0 c)) (c :: rest) r0 c0
          = rxToCxAux (cxToRxAux (rest.take j) (rxStep r0 c)) rest (rxStep r0 c) (c0 + 1) := by
            simp [rxToCxAux, hnot]
        _ = (c0 + 1) + j := ih j (rxStep r0 c) (c0 + 1) hj
        _ = c0 + (j + 1) := by omega

theorem rxToCx_inside (l : List Char) : ∀ t r0 c0 rx : Nat, t < l.length →
    cxToRxAux (l.take t) r0 ≤ rx → rx < cxToRxAux (l.take (t + 1)) r0 →
    rxToCxAux rx l r0 c0 = c0 + t := by
  induction l with
  | nil => intro t _ _ _ ht; simp at ht
  | cons c rest ih =>
    intro t r0 c0 rx ht hlo hhi
    cases t with
    | zero =>
      have hgt : rxStep r0 c > rx := hhi
      simp [rxToCxAux, hgt]
    | succ s =>
      have hs : s < rest.length := by simpa using ht
      have hlo' : cxToRxAux (rest.take s) (rxStep r0 c) ≤ rx := hlo
      have hhi' : rx < cxToRxAux (rest.take (s + 1)) (rxStep r0 c) := hhi
      have hnot : ¬ (rxStep r0 c > rx) := by
        have := cxToRxAux_le (rest.take s) (rxStep r0 c)
        omega
      calc rxToCxAux rx (c :: rest) r0 c0
          = rxToCxAux rx rest (rxStep r0 c) (c0 + 1) := by simp [rxToCxAux, hnot]
        _ = (c0 + 1) + s := ih s (rxStep r0 c) (c0 + 1) rx hs hlo' hhi'
        _ = c0 + (s + 1) := by omega

theorem listGet?_set_self {α : Type} : ∀ (l : List α) (i : Nat) (a : α), i < l.length →
    (l.set i a).get? i = some a := by
  intro l
  induction l with
  | nil => intro i a h; simp at h
  | cons b t ih =>
    intro i a h
    cases i with
    | zero => rfl
    | succ n => exact ih n a (by simpa using h)

theorem listGet?_insertIdx_self {α : Type} : ∀ (l : List α) (n : Nat) (a : α),
    n ≤ l.length → (List.insertIdx n a l).get? n = some a := by
  intro l
  induction l with
  | nil =>
    intro n a h
    have : n = 0 := Nat.le_zero.mp (by simpa using h)
    subst this
    rfl
  | cons b t ih =>
    intro n a h
    cases n with
    | zero => rfl
    | succ m =>
      rw [List.insertIdx_succ_cons]
      exact ih m a (Nat.le_of_succ_le_succ (by simpa using h))

theorem bumpIdxAux_some : ∀ (k : Nat) (rows : List Row) (j : Nat),
    k = 0 ∨ j + k ≤ rows.length →
    ∃ rows', bumpIdxAux rows j k = some rows' ∧ rows'.length = rows.length := by
  intro k
  induction k with
  | zero => intro rows j _; exact ⟨rows, rfl, rfl⟩
  | succ n ih =>
    intro rows j h
    have h' : j + (n + 1) ≤ rows.length := by omega
    have hj : j < rows.length := by omega
    have hget : rows.get? j = some (rows.get ⟨j, hj⟩) := List.get?_eq_get hj
    obtain ⟨rows', h1, h2⟩ := ih
      (rows.set j { rows.get ⟨j, hj⟩ with idx := (rows.get ⟨j, hj⟩).idx + 1 }) (j + 1)
      (Or.inr (by simpa using by omega))
    refine ⟨rows', ?_, by simpa using h2⟩
    simp only [bumpIdxAux, hget]
    exact h1

-- Claim theorems ----------------------------------------------------------

/-- Claim C1 (code bug): on the spec's own scenario — rows
`["a","b","c"]` with indices `[0,1,2]`, cursor on row 1, `delete_row(1)` —
the code leaves the rows `["a","c"]` but the second row keeps index 2
(the re-number loop `for j in at..numrows - 1` misses the last row), and
`insert_row(0, "n")` into `["a"]` produces two rows BOTH with index 0
(the loop `for j in at + 1..numrows` skips the shifted row), so the
"idx equals position" invariant does not hold after these operations. -/
theorem C1_idx_invariant_violated :
    (editor_del_row abcCfg 1).map (fun c => c.rows.map (fun r => (r.chars, r.idx)))
      = some [((("a").toList), 0), ((("c").toList), 2)] ∧
    (editor_insert_row oneRowCfg (("n").toList) 0).map (fun c => c.rows.map Row.idx)
      = some [0, 0] := by
  constructor <;> decide

/-- Claim C2 (code bug): after `editor_update_row` on a row whose raw
content is a single tab, the render is 8 spaces but the highlight sequence
has length 1 — `editor_update_syntax` allocates `vec![Normal; chars.len()]`,
one tag per RAW character, not per render character as the spec requires. -/
theorem C2_highlight_length_mismatch :
    (editor_update_row none [tabRawRow] 0).map
        (fun rs => rs.map (fun r => (r.render.length, r.hl.length)))
      = some [(8, 1)] := by
  decide

/-- Claim C3 (code bug): three operations inside the claim's stated domain
panic (modelled `none`): deleting the only remaining row (`numrows - 1`
underflows in the re-number loop), classifying a row whose text is exactly
the keyword `if` (the separator check `bytes[klen]` reads past the end of
the row), and classifying a row containing a tab under the C language
(`hl` is sized to the raw length, and the scan indexes it up to the longer
render length). -/
theorem C3_core_operations_panic :
    editor_del_row oneRowCfg 0 = none ∧
    apply_syntax c_syntax false (mkRow 0 (("if").toList)) = none ∧
    editor_update_syntax (some c_syntax) [mkRow 0 [('\t')]] 0 = none := by
  refine ⟨?_, ?_, ?_⟩ <;> decide

/-- Claim C5 (code bug): the row `"x */ y"` classified with the
predecessor's continuation open. The close-marker test is
`row.render.starts_with(mce)` — the START of the row, not the current scan
position — so the `*/` at offset 2 is never seen: every character of the
row is classified `MLComment` and, in `editor_update_syntax`, the row's
`hl_open_comment` remains `true` (the scan's final comment state is also
discarded, because `apply_syntax` takes `in_comment` by value). -/
theorem C5_block_comment_close_ignored :
    apply_syntax c_syntax true (mkRow 1 (("x */ y").toList))
      = some (List.replicate 6 Highlight.MLComment, true) ∧
    ( editor_update_syntax (some c_syntax)
        [{ mkRow 0 (("a").toList) with hl_open_comment := true },
         mkRow 1 (("x */ y").toList)] 1).map
      (fun rs => rs.map (fun r => r.hl_open_comment)) = some [true, true] := by
  constructor <;> decide

/-- Claim C6 (code bug): the claim's two examples do hold — `"int "` marks
exactly `int` as Keyword-Secondary and `"intake "` marks nothing — but the
general statement fails: the comparison uses the keyword with its `|`
marker AND its final character stripped (`keyword[..klen - 1]` after
`klen -= 1`), so the non-keyword text `"iny "` is also marked
Keyword-Secondary by the entry `int|`. -/
theorem C6_keyword_comparison_truncated :
    apply_syntax c_syntax false (mkRow 0 (("iny ").toList))
      = some ([Highlight.Keyword2, Highlight.Keyword2, Highlight.Keyword2,
               Highlight.Normal], false) ∧
    apply_syntax c_syntax false (mkRow 0 (("int ").toList))
      = some ([Highlight.Keyword2, Highlight.Keyword2, Highlight.Keyword2,
               Highlight.Normal], false) ∧
    apply_syntax c_syntax false (mkRow 0 (("intake ").toList))
      = some (List.replicate 7 Highlight.Normal, false) := by
  refine ⟨?_, ?_, ?_⟩ <;> decide

/-- Claim C9: the spec's search scenario. With rows
`["foo", "bar", "foobar"]` and query `"foo"`: the first step (no prior
match) hits row 0 at raw column 0; "next" hits row 2 at raw column 0;
"next" again wraps around the end and hits row 0 at raw column 0. -/
theorem C9_search_scenario :
    findDemo1.map searchStats = some (0, 0, 0) ∧
    findDemo2.map searchStats = some (2, 2, 0) ∧
    findDemo3.map searchStats = some (0, 0, 0) := by
  refine ⟨?_, ?_, ?_⟩ <;> decide

/-- Claim C7: the render-mapper round trip. For every raw column
`cx ≤ row.chars.length`, `rendered_to_raw (raw_to_rendered cx) = cx`
(in particular whenever the rendered position is not strictly inside a
tab's expansion), and every rendered column strictly inside a tab's
expansion maps back to the raw column of the tab character itself. -/
theorem C7_render_mapper_round_trip (row : Row) (cx : Nat)
    (hcx : cx ≤ row.chars.length) :
    editor_row_rx_to_cx row (editor_row_cx_to_rx row cx) = cx ∧
    ∀ t rx : Nat, row.chars.get? t = some '\t' →
      editor_row_cx_to_rx row t < rx → rx < editor_row_cx_to_rx row (t + 1) →
      editor_row_rx_to_cx row rx = t := by
  constructor
  · have h := rxToCx_take row.chars cx 0 0 hcx
    simpa [editor_row_rx_to_cx, editor_row_cx_to_rx] using h
  · intro t rx hget h1 h2
    have ht : t < row.chars.length := by
      by_contra hle
      rw [List.get?_eq_none.mpr (Nat.le_of_not_lt hle)] at hget
      exact Option.noConfusion hget
    have h := rxToCx_inside row.chars t 0 0 rx ht (le_of_lt h1) h2
    simpa [editor_row_rx_to_cx] using h

/-- Witness for C7: in the row `"a<tab>b"` (tab at raw column 1, rendered
span `[1, 8)`), the round trip at `cx = 2` returns 2, and the rendered
column 4 — strictly inside the tab's expansion — maps back to raw column 1. -/
theorem C7_witness :
    editor_row_rx_to_cx tabDemoRow (editor_row_cx_to_rx tabDemoRow 2) = 2 ∧
    editor_row_rx_to_cx tabDemoRow 4 = 1 := by
  refine ⟨(C7_render_mapper_round_trip tabDemoRow 2 (by decide)).1, ?_⟩
  exact (C7_render_mapper_round_trip tabDemoRow 2 (by decide)).2 1 4
    (by decide) (by decide) (by decide)

/-- Claim C10: `editor_rows_to_string` on a document with zero rows is the
empty string — the per-row `\n` is only pushed inside the loop over rows. -/
theorem C10_to_text_empty (cfg : EditorConfig) (h : cfg.rows = []) :
    editor_rows_to_string cfg = [] := by
  simp [editor_rows_to_string, h]

/-- Witness for C10 at the concrete empty document. -/
theorem C10_witness : editor_rows_to_string emptyCfg = [] :=
  C10_to_text_empty emptyCfg rfl

/-- Counterexample for C8 as stated: inserting at `at = 1` into an EMPTY
document is a complete no-op — `editor_insert_row` begins with
`if at > cfg.numrows { return; }` — whereas the claim requires a row to be
inserted at `min(at, row_count) = 0`. -/
theorem C8_counterexample :
    editor_insert_row emptyCfg (("x").toList) 1 = some emptyCfg ∧
    (editor_insert_row emptyCfg (("x").toList) 1).map (fun c => c.rows.length)
      ≠ some 1 := by
  constructor <;> decide

/-- Claim C8 (amended): `insert_row(at, text)` inserts ONLY when
`at ≤ row_count` — an `at` beyond the row count is a silent no-op (never a
fault), not a clamp. When `at ≤ row_count` (no active language, consistent
`numrows`), a new row containing `text` is inserted at position `at`,
re-derived (render and highlight rebuilt), and the document is marked
modified. -/
theorem C8_insert_row_clamp (cfg : EditorConfig) (text : List Char) (a : Nat)
    (hnum : cfg.numrows = cfg.rows.length) (hsyn : cfg.editor_syntax = none) :
    (cfg.numrows < a → editor_insert_row cfg text a = some cfg) ∧
    (a ≤ cfg.numrows → ∃ cfg', editor_insert_row cfg text a = some cfg' ∧
      cfg'.rows.length = cfg.rows.length + 1 ∧
      cfg'.rows.get? a = some (mkRow a text) ∧
      cfg'.numrows = cfg.numrows + 1 ∧ cfg'.dirty = true) := by
  constructor
  · intro h
    simp [editor_insert_row, h]
  · intro h
    obtain ⟨rows1, hb, hlen1⟩ :=
      bumpIdxAux_some (cfg.numrows - (a + 1)) cfg.rows (a + 1) (by omega)
    have ha1 : a ≤ rows1.length := by omega
    let newRow : Row :=
      { idx := a, chars := text, render := [], hl := [], hl_open_comment := false }
    let rows2 := List.insertIdx a newRow rows1
    have hlen2 : rows2.length = rows1.length + 1 := List.length_insertIdx a rows1 ha1
    have hget2 : rows2.get? a = some newRow := listGet?_insertIdx_self rows1 a newRow ha1
    let rowR : Row := { newRow with render := renderChars text 0 }
    have hget3 : (rows2.set a rowR).get? a = some rowR :=
      listGet?_set_self rows2 a rowR (by omega)
    have hupd : editor_update_row none rows2 a
        = some ((rows2.set a rowR).set a (mkRow a text)) := by
      simp only [editor_update_row, hget2]
      simp only [ editor_update_syntax, hget3]
      rfl
    let cfg' : EditorConfig :=
      { cfg with rows := (rows2.set a rowR).set a (mkRow a text),
                 numrows := rows2.length, dirty := true, editor_syntax := none }
    refine ⟨cfg', ?_, ?_, ?_, ?_, ?_⟩
    · simp only [editor_insert_row, if_neg (by omega : ¬ a > cfg.numrows), hb, hsyn,
        if_pos ha1, hupd]
    · simp [cfg', List.length_set, hlen2, hlen1]
    · exact listGet?_set_self (rows2.set a rowR) a (mkRow a text)
        (by simp [List.length_set]; omega)
    · show rows2.length = cfg.numrows + 1
      omega
    · rfl

/-- Witness for C8 at the empty document: inserting at 2 (out of range) is
a no-op; inserting at 0 yields one re-derived row "x". -/
theorem C8_witness :
    editor_insert_row emptyCfg (("x").toList) 2 = some emptyCfg ∧
    ∃ cfg', editor_insert_row emptyCfg (("x").toList) 0 = some cfg' ∧
      cfg'.rows.length = 1 ∧ cfg'.rows.get? 0 = some (mkRow 0 (("x").toList)) ∧
      cfg'.numrows = 1 ∧ cfg'.dirty = true := by
  constructor
  · exact (C8_insert_row_clamp emptyCfg (("x").toList) 2 rfl rfl).1 (by decide)
  · exact (C8_insert_row_clamp emptyCfg (("x").toList) 0 rfl rfl).2 (by decide)

/-- Counterexample for C4 as stated: splitting the row `"hello world"`
with the cursor at column 5 yields `"hell"` and `"o world"`, not
`"hello"` and `" world"` — `editor_insert_new_line` splits at
`cx - 1`, not at `cx`. -/
theorem C4_counterexample :
    (editor_insert_new_line (mkCfg [mkRow 0 (("hello world").toList)] 5 0)).map
        (fun c => c.rows.map Row.chars)
      = some [("hell").toList, ("o world").toList] ∧
    (editor_insert_new_line (mkCfg [mkRow 0 (("hello world").toList)] 5 0)).map
        (fun c => c.rows.map Row.chars)
      ≠ some [("hello").toList, (" world").toList] := by
  constructor <;> decide

/-- Claim C4 (amended): `editor_insert_new_line` with cursor column
`cx > 0` truncates the row's raw content to `[0, cx - 1)` and inserts a
new row immediately after containing `[cx - 1, end)`, both rows re-derived
(render rebuilt, highlight re-allocated); the spec's split of
`"hello world"` into `"hello"` and `" world"` therefore occurs at
`cx = 6`, one past the stated column (the keypress handler compensates by
moving the cursor right before calling this function). -/
theorem C4_split_row_amended (s : List Char) (cx : Nat) (h1 : cx ≠ 0)
    (h2 : cx - 1 ≤ s.length) :
    editor_insert_new_line (mkCfg [mkRow 0 s] cx 0) =
      some { mkCfg [mkRow 0 s] cx 0 with
             rows := [mkRow 0 (s.take (cx - 1)), mkRow 1 (s.drop (cx - 1))],
             numrows := 2, dirty := true, cy := 1, cx := 0 } := by
  obtain ⟨m, rfl⟩ : ∃ m, cx = m + 1 := ⟨cx - 1, by omega⟩
  have hm : m ≤ s.length := by simpa using h2
  simp only [editor_insert_new_line, mkCfg, mkRow]
  simp [editor_insert_row, editor_update_row, editor_update_syntax , bumpIdxAux,
    hm, List.insertIdx_succ_cons, List.insertIdx_zero]

/-- Witness for C4 at `"hello world"` with `cx = 6`: the resulting rows
are exactly `"hello"` and `" world"`, re-derived. -/
theorem C4_witness :
    editor_insert_new_line (mkCfg [mkRow 0 (("hello world").toList)] 6 0) =
      some { mkCfg [mkRow 0 (("hello world").toList)] 6 0 with
             rows := [mkRow 0 (("hello").toList), mkRow 1 ((" world").toList)],
             numrows := 2, dirty := true, cy := 1, cx := 0 } := by
  have h := C4_split_row_amended (("hello world").toList) 6 (by decide) (by decide)
  exact h
